import Mathlib

/-!
Verification of the deal-resolution pipeline in `src/main_pipeline.py`.

The script's pure text-processing core is embedded over `List Char`:
ASIN extraction (`find_asin`), the keyword-search fallback link
(`create_amazon_search_link`), ingest (`ingestEntry` / `fetch_deals`),
the enrichment step (`enrichOne`, with the external text-generation call
and the network-dependent social-card step supplied as oracle
parameters), and the static-site renderer (`generate_site`, returning
`none` when a dictionary access would raise `KeyError`).

Library calls from Python (`re.search` on the four fixed patterns,
`urllib.parse.quote`, `str.lower`, `str.split`, `str.isdigit`) are
modelled directly; `re.search` semantics (leftmost match, greedy `.*`
with backtracking) are spelled out pattern by pattern.

The Monetizer (`monetize`) and the Selector's exclusion filter
(`select`) are not present in this source file; they are modelled from
the specification and are marked as such in their doc comments.
-/

/-! ### Basic character classes and string helpers -/

/-- The regex character class `[A-Z0-9]` used by every ASIN pattern. -/
def isAZ09 (c : Char) : Bool :=
  ('A' ≤ c && c ≤ 'Z') || ('0' ≤ c && c ≤ '9')

/-- ASCII decimal digit, the class behind Python's `str.isdigit` on ASCII text. -/
def isDigitChar (c : Char) : Bool := '0' ≤ c && c ≤ '9'

/-- Whitespace recognised by Python's argument-less `str.split`. -/
def isSpaceChar (c : Char) : Bool :=
  c = ' ' || c = '\t' || c = '\n' || c = '\r' || c = '\x0b' || c = '\x0c'

/-- `startsWith pat l`: `pat` is a prefix of `l`. -/
def startsWith : List Char → List Char → Bool
  | [], _ => true
  | _ :: _, [] => false
  | p :: ps, c :: cs => p = c && startsWith ps cs

/-- Substring test, Python's `pat in l`. -/
def containsSub (pat : List Char) : List Char → Bool
  | [] => startsWith pat []
  | c :: rest => startsWith pat (c :: rest) || containsSub pat rest

/-- First-some choice, the search-order combinator behind the pattern chain. -/
def oOr (a b : Option (List Char)) : Option (List Char) :=
  match a with
  | some x => some x
  | none => b

/-! ### `find_asin` — the regex pattern chain

Python (`main_pipeline.py` lines 90-96):
```
def find_asin(text):
    if not text: return None
    patterns = [r'/dp/([A-Z0-9]{10})', r'/gp/product/([A-Z0-9]{10})',
                r'amazon\.com.*/([A-Z0-9]{10})', r'%2Fdp%2F([A-Z0-9]{10})']
    for pattern in patterns:
        match = re.search(pattern, text)
        if match: return match.group(1)
    return None
```
-/

/-- Consume exactly `n` characters of class `[A-Z0-9]`, returning them. -/
def takeClass : Nat → List Char → Option (List Char)
  | 0, _ => some []
  | _ + 1, [] => none
  | n + 1, c :: rest =>
      if isAZ09 c then (takeClass n rest).map (fun r => c :: r) else none

/-- Match `lit` followed by ten `[A-Z0-9]` characters at the head of `l`
(the group of patterns `/dp/(...)`, `/gp/product/(...)`, `%2Fdp%2F(...)`). -/
def matchLitClass (lit : List Char) (l : List Char) : Option (List Char) :=
  if startsWith lit l then takeClass 10 (l.drop lit.length) else none

/-- `re.search` for a literal-plus-class pattern: try each start position
left to right, first full match wins. -/
def searchLitClass (lit : List Char) : List Char → Option (List Char)
  | [] => none
  | c :: rest =>
      match matchLitClass lit (c :: rest) with
      | some r => some r
      | none => searchLitClass lit rest

/-- For the pattern `amazon\.com.*/([A-Z0-9]{10})`: within the text after
`amazon.com` (restricted to the current line, since `.` does not match a
newline), the greedy `.*` makes the group come from the LAST position
holding `/` followed by ten class characters. -/
def lastSlashClass : List Char → Option (List Char)
  | [] => none
  | c :: rest =>
      match lastSlashClass rest with
      | some r => some r
      | none => if c = '/' then takeClass 10 rest else none

/-- Try the `amazon\.com.*/(...)` pattern anchored at the head of `l`. -/
def amazonComAt (l : List Char) : Option (List Char) :=
  if startsWith "amazon.com".data l then
    lastSlashClass ((l.drop 10).takeWhile (fun c => c ≠ '\n'))
  else none

/-- `re.search` for `amazon\.com.*/([A-Z0-9]{10})`: leftmost start wins. -/
def searchAmazonCom : List Char → Option (List Char)
  | [] => none
  | c :: rest =>
      match amazonComAt (c :: rest) with
      | some r => some r
      | none => searchAmazonCom rest

def dpLit : List Char := "/dp/".data
def gpLit : List Char := "/gp/product/".data
def pctDpLit : List Char := "%2Fdp%2F".data

/-- `find_asin` (lines 90-96): the four patterns tried in order,
first matching pattern wins; the empty-text guard is subsumed because no
pattern matches the empty string. -/
def find_asin (text : List Char) : Option (List Char) :=
  oOr (searchLitClass dpLit text)
    (oOr (searchLitClass gpLit text)
      (oOr (searchAmazonCom text)
        (searchLitClass pctDpLit text)))

/-! ### `urllib.parse.quote` (default `safe='/'`) -/

/-- Characters `urllib.parse.quote` leaves unescaped with the default
`safe='/'`: unreserved ASCII plus the slash. -/
def quoteSafe (c : Char) : Bool :=
  ('A' ≤ c && c ≤ 'Z') || ('a' ≤ c && c ≤ 'z') || ('0' ≤ c && c ≤ '9') ||
  c = '_' || c = '.' || c = '-' || c = '~' || c = '/'

def hexChars : List Char := "0123456789ABCDEF".data

def hexDigit (n : Nat) : Char := hexChars.getD n 'F'

/-- `%XX` escape of one byte. -/
def pctByte (b : Nat) : List Char := ['%', hexDigit (b / 16), hexDigit (b % 16)]

/-- UTF-8 encoding of one code point (quote percent-encodes the UTF-8 bytes). -/
def utf8Bytes (c : Char) : List Nat :=
  let n := c.toNat
  if n < 128 then [n]
  else if n < 2048 then [192 + n / 64, 128 + n % 64]
  else if n < 65536 then [224 + n / 4096, 128 + (n / 64) % 64, 128 + n % 64]
  else [240 + n / 262144, 128 + (n / 4096) % 64, 128 + (n / 64) % 64, 128 + n % 64]

/-- `urllib.parse.quote(s)` with the default `safe='/'`. -/
def pyQuote (l : List Char) : List Char :=
  l.flatMap (fun c => if quoteSafe c then [c] else (utf8Bytes c).flatMap pctByte)

/-! ### `create_amazon_search_link`

Python (lines 98-104):
```
def create_amazon_search_link(title):
    junk = ["sale", "deal", "price", "drop", "off", "coupon", "amazon",
            "at", "for", "only", "$", "lowest"]
    words = title.lower().split()
    clean_words = [w for w in words if w not in junk and not w.isdigit()]
    search_query = " ".join(clean_words[:5])
    encoded_query = urllib.parse.quote(search_query)
    return f"https://www.amazon.com/s?k={encoded_query}&tag={AMAZON_TAG}"
```
-/

def AMAZON_TAG : List Char := "circuitbrea0c-20".data

/-- Python `str.lower` (faithful on the ASCII titles at issue). -/
def lowerL (l : List Char) : List Char := l.map Char.toLower

/-- Worker for `str.split()`: split on whitespace runs, dropping empties;
`acc` holds the current word reversed. -/
def splitWsGo (acc : List Char) : List Char → List (List Char)
  | [] => if acc = [] then [] else [acc.reverse]
  | c :: rest =>
      if isSpaceChar c then
        if acc = [] then splitWsGo [] rest else acc.reverse :: splitWsGo [] rest
      else splitWsGo (c :: acc) rest

/-- Python `str.split()` with no separator argument. -/
def pySplit (l : List Char) : List (List Char) := splitWsGo [] l

/-- Python `str.isdigit` (ASCII digits). -/
def pyIsDigit (w : List Char) : Bool := !(w.isEmpty) && w.all isDigitChar

def junkWords : List (List Char) :=
  ["sale".data, "deal".data, "price".data, "drop".data, "off".data,
   "coupon".data, "amazon".data, "at".data, "for".data, "only".data,
   "$".data, "lowest".data]

/-- `" ".join(ws)`. -/
def joinSpace : List (List Char) → List Char
  | [] => []
  | [w] => w
  | w :: ws => w ++ ' ' :: joinSpace ws

/-- The filtered token list `clean_words` of `create_amazon_search_link`. -/
def clean_words (title : List Char) : List (List Char) :=
  (pySplit (lowerL title)).filter
    (fun w => !(junkWords.contains w) && !(pyIsDigit w))

/-- The joined query string `search_query` (first five clean tokens). -/
def search_query (title : List Char) : List Char :=
  joinSpace ((clean_words title).take 5)

/-- `create_amazon_search_link` (lines 98-104). -/
def create_amazon_search_link (title : List Char) : List Char :=
  "https://www.amazon.com/s?k=".data ++ pyQuote (search_query title) ++
    "&tag=".data ++ AMAZON_TAG

/-! ### `extract_image`

Python (lines 84-88): `re.search(r'<img[^>]+src="([^">]+)"', summary + content)`.
The `[^>]+` before `src="` is greedy with backtracking, so among the
candidate `src="` occurrences inside the `>`-free span after `<img`, the
LAST one whose group matches wins; the group `([^">]+)"` is a maximal
nonempty run of non-`"`/non-`>` characters that must be followed by `"`.
-/

def srcLit : List Char := "src=\x22".data

/-- The group `([^">]+)"`: maximal run of characters outside `"`/`>`,
nonempty, followed by a closing quote. -/
def imgGroupAt (l : List Char) : Option (List Char) :=
  let r := l.takeWhile (fun c => c ≠ '\x22' && c ≠ '>')
  if r.isEmpty then none
  else
    match l.drop r.length with
    | '\x22' :: _ => some r
    | _ => none

/-- Scan the `>`-free span following `<img` for the last (greediest)
`src="` whose group matches; one character must precede `src="`. -/
def imgAfter : List Char → Option (List Char)
  | [] => none
  | c :: rest =>
      if c = '>' then none
      else
        match imgAfter rest with
        | some g => some g
        | none =>
            if startsWith srcLit rest then imgGroupAt (rest.drop 5) else none

/-- `re.search` over the whole text: leftmost `<img` with a full match wins. -/
def imgSearch : List Char → Option (List Char)
  | [] => none
  | c :: rest =>
      match (if startsWith "<img".data (c :: rest)
             then imgAfter ((c :: rest).drop 4) else none) with
      | some g => some g
      | none => imgSearch rest

/-! ### Data model and ingest (`fetch_deals`, lines 107-141)

A feed entry carries the fields the script reads; sources whose HTTP
fetch or feed parse raises are represented by `none` (the per-source
`except` swallows the error and the source contributes nothing — a
mid-iteration failure is the same as a shorter entry list). The deal
dictionary becomes `PyDeal`; keys the script may leave unset are
`Option` fields defaulting to `none`.
-/

structure Entry where
  title : List Char
  link : List Char
  summary : List Char
  content : List Char
deriving DecidableEq

structure PyDeal where
  title : List Char
  link : List Char
  img : Option (List Char)
  source : List Char
  id : List Char
  headline : Option (List Char) := none
  why_good : Option (List Char) := none
  discount_guess : Option (List Char) := none
  category : Option (List Char) := none
  social_caption : Option (List Char) := none
  social_image_path : Option (List Char) := none
deriving DecidableEq

/-- `extract_image(entry)` over `str(entry.get('summary','')) + str(entry.get('content',''))`. -/
def extract_image (e : Entry) : Option (List Char) :=
  imgSearch (e.summary ++ e.content)

/-- `blob = str(entry.link) + str(entry.get('summary', ''))` (line 117). -/
def entryBlob (e : Entry) : List Char := e.link ++ e.summary

/-- The direct product link `f"https://www.amazon.com/dp/{asin}?tag={AMAZON_TAG}"`. -/
def dpLink (asin : List Char) : List Char :=
  "https://www.amazon.com/dp/".data ++ asin ++ "?tag=".data ++ AMAZON_TAG

/-- One iteration of the ingest loop body (lines 117-131): resolve the
ASIN from link+summary, build the final link, extract the image, and
record `id = asin if asin else entry.link`. -/
def ingestEntry (srcName : List Char) (e : Entry) : PyDeal :=
  match find_asin (entryBlob e) with
  | some asin =>
      { title := e.title, link := dpLink asin, img := extract_image e,
        source := srcName, id := asin }
  | none =>
      { title := e.title, link := create_amazon_search_link e.title,
        img := extract_image e, source := srcName, id := e.link }

/-- Deals contributed by one source: nothing on failure, else the first
six entries (`feed.entries[:6]`). -/
def sourceDeals (src : List Char × Option (List Entry)) : List PyDeal :=
  match src.2 with
  | none => []
  | some es => (es.take 6).map (ingestEntry src.1)

/-- The dedupe loop (lines 135-140): `seen` is the set of titles already
kept; first-seen order is preserved. -/
def dedupGo (seen : List (List Char)) : List PyDeal → List PyDeal
  | [] => []
  | d :: ds =>
      if d.title ∈ seen then dedupGo seen ds
      else d :: dedupGo (d.title :: seen) ds

/-- `fetch_deals` (lines 107-141): ingest every source, dedupe by title,
truncate to 15 (`return list(unique)[:15]`). -/
def fetch_deals (sources : List (List Char × Option (List Entry))) : List PyDeal :=
  (dedupGo [] (sources.flatMap sourceDeals)).take 15

/-! ### Enrichment (`ai_enrich`, lines 143-172)

The text-generation call is an oracle: `none` models any exception up to
and including `json.loads` (network error, API error, malformed
response); `some r` models a parsed JSON object whose documented fields
may each be present or absent (`deal.update(data)` merges blindly).
`generate_social_card` is wrapped in its own `try/except`; its only
effects visible here are: it surely raises internally when
`discount_guess` is missing, its `except` handler itself raises
(propagating to `ai_enrich`'s bare `except`) exactly when `headline` is
missing, and otherwise it returns a filename or `None` depending on the
network, modelled by the `cardOk` oracle.
-/

structure EnrichResp where
  headline : Option (List Char) := none
  why_good : Option (List Char) := none
  discount_guess : Option (List Char) := none
  category : Option (List Char) := none
  social_caption : Option (List Char) := none
deriving DecidableEq

def FALLBACK_IMGS : List (List Char × List Char) :=
  [("Tech".data,
    "https://images.unsplash.com/photo-1519389950473-47ba0277781c?w=800&q=80".data),
   ("Home".data,
    "https://images.unsplash.com/photo-1556909114-f6e7ad7d3136?w=800&q=80".data),
   ("Audio".data,
    "https://images.unsplash.com/photo-1505740420928-5e560c06d30e?w=800&q=80".data),
   ("Default".data,
    "https://images.unsplash.com/photo-1526738549149-8e07eca6c147?w=800&q=80".data)]

def defaultImg : List Char :=
  "https://images.unsplash.com/photo-1526738549149-8e07eca6c147?w=800&q=80".data

/-- `FALLBACK_IMGS.get(deal.get('category'), FALLBACK_IMGS['Default'])`. -/
def fallbackImgFor (cat : Option (List Char)) : List Char :=
  match cat with
  | some c =>
      match FALLBACK_IMGS.lookup c with
      | some u => u
      | none => defaultImg
  | none => defaultImg

/-- `deal.update(data)`: fields present in the response overwrite. -/
def mergeResp (d : PyDeal) (r : EnrichResp) : PyDeal :=
  { d with
    headline := match r.headline with | some x => some x | none => d.headline,
    why_good := match r.why_good with | some x => some x | none => d.why_good,
    discount_guess :=
      match r.discount_guess with | some x => some x | none => d.discount_guess,
    category := match r.category with | some x => some x | none => d.category,
    social_caption :=
      match r.social_caption with | some x => some x | none => d.social_caption }

/-- The `except` branch of `ai_enrich` (lines 166-170), applied to the
deal as already mutated: truncated title as headline, fixed justification
and discount, caption from the fresh headline, default image if unset.
`category` is NOT among the synthesized fields. -/
def applyFallback (d : PyDeal) : PyDeal :=
  let hl := d.title.take 50
  let d1 := { d with
    headline := some hl,
    why_good := some "Check price.".data,
    discount_guess := some "DEAL".data,
    social_caption :=
      some ("Check out this deal on ".data ++ hl ++ "! #TechDeals".data) }
  { d1 with img := match d1.img with | none => some defaultImg | some u => some u }

/-- `f"assets/card_{deal['id'][-5:]}.png"` (line 74). -/
def cardFilename (d : PyDeal) : List Char :=
  "assets/card_".data ++ d.id.drop (d.id.length - 5) ++ ".png".data

/-- One iteration of the `ai_enrich` loop (lines 146-171). -/
def enrichOne (d : PyDeal) (svc : Option EnrichResp) (cardOk : Bool) : PyDeal :=
  match svc with
  | none => applyFallback d
  | some data =>
      let d1 := mergeResp d data
      let d2 := { d1 with
        img := match d1.img with
               | none => some (fallbackImgFor d1.category)
               | some u => some u }
      match d2.headline with
      | none => applyFallback d2
      | some _ =>
          if cardOk && d2.discount_guess.isSome
          then { d2 with social_image_path := some (cardFilename d2) }
          else { d2 with social_image_path := none }

/-- `ai_enrich` over the deal list, consuming one oracle pair per deal. -/
def ai_enrich : List PyDeal → List (Option EnrichResp) → List Bool → List PyDeal
  | [], _, _ => []
  | d :: ds, rs, cs =>
      enrichOne d (rs.headD none) (cs.headD true) :: ai_enrich ds rs.tail cs.tail

/-! ### Publisher: `generate_site` (lines 201-278)

The HTML is assembled exactly as the script concatenates it.  A missing
dictionary key in the per-deal card loop raises `KeyError` and aborts the
run before `index.html` is written; that is modelled by `generate_site`
returning `none`.  `f"...{deal['img']}..."` stringifies `None` as the
text `None`, so the `img` slot never raises.
-/

def siteHeader : List Char := "
    <!DOCTYPE html>
    <html lang=\"en\">
    <head>
        <meta charset=\"UTF-8\">
        <meta name=\"viewport\" content=\"width=device-width, initial-scale=1.0\">
        <title>Better Amazon Prices | AI Deal Hunter</title>
        <link rel=\"icon\" href=\"https://fav.farm/⚡\" />
        <meta name=\"description\" content=\"AI-powered daily Amazon deal finder. Stop overpaying for tech.\">
        <style>
            :root \x7b --bg: #111827; --card: #1f2937; --text: #f3f4f6; --accent: #f59e0b; --btn-text: #111827; \x7d
            body \x7b font-family: system-ui, sans-serif; background: var(--bg); color: var(--text); margin: 0; \x7d
            .nav \x7b padding: 20px; text-align: center; border-bottom: 1px solid #374151; \x7d
            .logo \x7b font-size: 1.8rem; font-weight: 900; color: white; letter-spacing: -1px; text-decoration: none; \x7d
            .logo span \x7b color: var(--accent); \x7d
            .hero \x7b text-align: center; padding: 80px 20px; background: radial-gradient(circle at top, #374151 0%, #111827 100%); \x7d
            h1 \x7b font-size: 2.8rem; margin-bottom: 15px; line-height: 1.1; \x7d
            .highlight \x7b color: var(--accent); \x7d
            .subtitle \x7b color: #9ca3af; font-size: 1.2rem; max-width: 700px; margin: 0 auto; line-height: 1.5; \x7d
            .container \x7b max-width: 1200px; margin: 0 auto; padding: 40px 20px; \x7d
            .grid \x7b display: grid; grid-template-columns: repeat(auto-fill, minmax(280px, 1fr)); gap: 30px; \x7d
            .card \x7b background: var(--card); border-radius: 12px; overflow: hidden; border: 1px solid #374151; transition: transform 0.2s; position: relative; display: flex; flex-direction: column; \x7d
            .card:hover \x7b transform: translateY(-5px); border-color: var(--accent); \x7d
            .badge \x7b position: absolute; top: 10px; left: 10px; background: var(--accent); color: var(--btn-text); padding: 4px 8px; border-radius: 4px; font-size: 0.75rem; font-weight: 800; \x7d
            .card-img \x7b width: 100%; height: 200px; object-fit: cover; background: #000; \x7d
            .card-body \x7b padding: 20px; display: flex; flex-direction: column; flex-grow: 1; \x7d
            .headline \x7b font-size: 1.1rem; font-weight: 700; margin: 0 0 10px 0; line-height: 1.3; \x7d
            .why \x7b color: #d1d5db; font-size: 0.9rem; margin-bottom: 20px; flex-grow: 1; \x7d
            .btn \x7b background: var(--accent); color: var(--btn-text); text-decoration: none; padding: 12px; border-radius: 6px; text-align: center; font-weight: 800; display: block; transition: opacity 0.2s; text-transform: uppercase; font-size: 0.9rem; \x7d
            .btn:hover \x7b opacity: 0.9; \x7d
            footer \x7b text-align: center; margin-top: 80px; padding: 40px; color: #6b7280; border-top: 1px solid #374151; font-size: 0.85rem; \x7d
        </style>
    </head>
    <body>
        <div class=\"nav\">
            <a href=\"/\" class=\"logo\">BETTER<span>AMAZON</span>PRICES</a>
        </div>
        <div class=\"hero\">
            <h1>Stop Overpaying on <span class=\"highlight\">Amazon</span>.</h1>
            <p class=\"subtitle\">We leverage AI to find you the best deals on Amazon so you don\x27t have to. <br>Updated daily.</p>
        </div>
        <div class=\"container\">
            <div class=\"grid\">
    ".data

/-- The zero-deals placeholder (line 250). -/
def noDealsMsg : List Char :=
  "<p style=\x27grid-column: 1/-1; text-align: center;\x27>AI is scanning Amazon inventory... Updates arriving shortly.</p>".data

def siteFooter : List Char := "
            </div>
        </div>
        <footer>
            <p>BetterAmazonPrices.com is a participant in the Amazon Services LLC Associates Program.<br>
            We use AI to aggregate publicly available deals.</p>
        </footer>
    </body>
    </html>
    ".data

/-- `f"...{deal['img']}..."`: Python stringifies `None`. -/
def imgStr : Option (List Char) → List Char
  | some u => u
  | none => "None".data

/-- The per-deal card markup (lines 253-263). -/
def cardHtml (disc img hl why link : List Char) : List Char :=
  "
        <div class=\"card\">
            <div class=\"badge\">".data ++ disc ++ "</div>
            <img src=\"".data ++ img ++ "\" class=\"card-img\" loading=\"lazy\" alt=\"".data ++ hl ++ "\">
            <div class=\"card-body\">
                <div class=\"headline\">".data ++ hl ++ "</div>
                <div class=\"why\">\"".data ++ why ++ "\"</div>
                <a href=\"".data ++ link ++ "\" class=\"btn\" target=\"_blank\">View on Amazon &rarr;</a>
            </div>
        </div>
        ".data

/-- One card, or `none` when `deal['discount_guess']`, `deal['headline']`
or `deal['why_good']` is missing (`KeyError`). -/
def cardHtmlOf (d : PyDeal) : Option (List Char) :=
  match d.discount_guess, d.headline, d.why_good with
  | some disc, some hl, some why =>
      some (cardHtml disc (imgStr d.img) hl why d.link)
  | _, _, _ => none

/-- The card loop: sequential, first `KeyError` aborts. -/
def cardsHtml : List PyDeal → Option (List Char)
  | [] => some []
  | d :: ds =>
      match cardHtmlOf d with
      | none => none
      | some c =>
          match cardsHtml ds with
          | none => none
          | some r => some (c ++ r)

/-- `generate_site` (lines 201-278): header, the no-deals paragraph when
the list is empty, one card per deal, footer; `none` models a `KeyError`
escaping the loop (no page is produced). -/
def generate_site (deals : List PyDeal) : Option (List Char) :=
  match cardsHtml deals with
  | none => none
  | some cs =>
      some (siteHeader ++ (if deals.isEmpty then noDealsMsg else []) ++ cs ++ siteFooter)

/-- The `__main__` block (lines 280-287): fetch; on a non-empty list,
enrich and render it; on an empty list, render the empty page (the RSS
feed is only generated on the non-empty branch and is out of scope
here). -/
def mainRun (sources : List (List Char × Option (List Entry)))
    (rs : List (Option EnrichResp)) (cs : List Bool) : Option (List Char) :=
  let raw := fetch_deals sources
  if raw = [] then generate_site []
  else generate_site (ai_enrich raw rs cs)

/-! ### Spec-modelled components (absent from `src`) -/

/-- Splits a URL at its first `?`: `(base, none)` when there is no query
string, else `(base, some query)`. -/
def splitAtQuery : List Char → List Char × Option (List Char)
  | [] => ([], none)
  | c :: rest =>
      if c = '?' then ([], some rest)
      else
        let p := splitAtQuery rest
        (c :: p.1, p.2)

/-- Split a query string on every `&`. -/
def splitAmp : List Char → List (List Char)
  | [] => [[]]
  | c :: rest =>
      if c = '&' then [] :: splitAmp rest
      else
        match splitAmp rest with
        | [] => [[c]]
        | p :: ps => (c :: p) :: ps

/-- Rejoin query parameters with `&`. -/
def joinAmp : List (List Char) → List Char
  | [] => []
  | [p] => p
  | p :: ps => p ++ '&' :: joinAmp ps

def tagKey : List Char := "tag=".data

/-- A query parameter carrying the affiliate tag. -/
def isTagParam (p : List Char) : Bool := startsWith tagKey p

/-- Strip `https://` or `http://`. -/
def dropScheme (l : List Char) : List Char :=
  if startsWith "https://".data l then l.drop 8
  else if startsWith "http://".data l then l.drop 7
  else l

/-- Host portion of a URL: after the scheme, up to the first `/` or `?`. -/
def hostOf (l : List Char) : List Char :=
  (dropScheme l).takeWhile (fun c => c ≠ '/' && c ≠ '?')

/-- The marketplace domain test of the spec's Monetizer. -/
def isMarketHost (l : List Char) : Bool :=
  hostOf l = "www.amazon.com".data || hostOf l = "amazon.com".data

/-- Replace the value of an affiliate-tag parameter, leave others alone. -/
def retag (p : List Char) : List Char :=
  if isTagParam p then tagKey ++ AMAZON_TAG else p

/-- Modelled from the spec: the Monetizer (§4.3, §2) is not part of
`src/main_pipeline.py` (the script bakes the tag into the links it
builds); per the spec, `monetize(url)` on a marketplace-host URL replaces
the value of an existing affiliate-tag parameter, else appends the
parameter with `?` when the URL has no query string yet and with `&`
otherwise; non-marketplace URLs pass through unchanged. -/
def monetize (url : List Char) : List Char :=
  if isMarketHost url then
    match splitAtQuery url with
    | (base, none) => base ++ '?' :: (tagKey ++ AMAZON_TAG)
    | (base, some q) =>
        let params := splitAmp q
        if params.any isTagParam then
          base ++ '?' :: joinAmp (params.map retag)
        else
          base ++ '?' :: (q ++ '&' :: (tagKey ++ AMAZON_TAG))
  else url

/-- Number of affiliate-tag parameters carried by a URL. -/
def countTag (url : List Char) : Nat :=
  match splitAtQuery url with
  | (_, none) => 0
  | (_, some q) => (splitAmp q).countP (fun p => isTagParam p)

/-- Number of query parameters carried by a URL. -/
def paramCount (url : List Char) : Nat :=
  match splitAtQuery url with
  | (_, none) => 0
  | (_, some q) => (splitAmp q).length

/-- Modelled from the spec: the Deal record of §3 as the Selector (§4.4)
sees it, with the optional `product_id` and `resolved_link` fields that
drive the documented dedupe-key priority. -/
structure SpecDeal where
  title : List Char
  product_id : Option (List Char) := none
  resolved_link : Option (List Char) := none
deriving DecidableEq

/-- Modelled from the spec: dedupe key priority — product id when
present, else resolved link, else title (§4.4). -/
def dedupKey (d : SpecDeal) : List Char :=
  match d.product_id with
  | some p => p
  | none =>
      match d.resolved_link with
      | some l => l
      | none => d.title

/-- First-seen-order dedupe on `dedupKey`. -/
def selectDedup (seen : List (List Char)) : List SpecDeal → List SpecDeal
  | [] => []
  | d :: ds =>
      if dedupKey d ∈ seen then selectDedup seen ds
      else d :: selectDedup (dedupKey d :: seen) ds

/-- Modelled from the spec: `select(deals, max_count, exclude_keywords)`
(§4.4) — the exclusion filter is not present in `src/main_pipeline.py`.
Drop any deal whose title contains a case-insensitive match against a
configured exclusion keyword, dedupe preserving first-seen order on the
key priority above, truncate to `max_count`. -/
def select (deals : List SpecDeal) (max_count : Nat)
    (exclude : List (List Char)) : List SpecDeal :=
  (selectDedup []
    (deals.filter
      (fun d => !(exclude.any (fun k => containsSub (lowerL k) (lowerL d.title)))))).take
    max_count

/-! ### Helper lemmas: pattern matching -/

theorem takeClass_spec {n : Nat} {l r : List Char} (h : takeClass n l = some r) :
    r.length = n ∧ ∀ c ∈ r, isAZ09 c = true := by
  induction n generalizing l r with
  | zero =>
      simp only [takeClass, Option.some.injEq] at h
      subst h; simp
  | succ n ih =>
      match l with
      | [] => simp [takeClass] at h
      | c :: rest =>
          simp only [takeClass] at h
          by_cases hc : isAZ09 c
          · rw [if_pos hc] at h
            match hr : takeClass n rest with
            | none => rw [hr] at h; simp at h
            | some r' =>
                rw [hr] at h
                simp only [Option.map_some', Option.some.injEq] at h
                subst h
                obtain ⟨hlen, hall⟩ := ih hr
                refine ⟨by simp [hlen], ?_⟩
                intro x hx
                rcases List.mem_cons.mp hx with hx | hx
                · subst hx; exact hc
                · exact hall x hx
          · rw [if_neg hc] at h; simp at h

theorem matchLitClass_spec {lit l r : List Char} (h : matchLitClass lit l = some r) :
    r.length = 10 ∧ ∀ c ∈ r, isAZ09 c = true := by
  unfold matchLitClass at h
  by_cases hs : startsWith lit l
  · rw [if_pos hs] at h; exact takeClass_spec h
  · rw [if_neg hs] at h; simp at h

theorem searchLitClass_spec {lit l r : List Char} (h : searchLitClass lit l = some r) :
    r.length = 10 ∧ ∀ c ∈ r, isAZ09 c = true := by
  induction l with
  | nil => simp [searchLitClass] at h
  | cons c rest ih =>
      unfold searchLitClass at h
      match hm : matchLitClass lit (c :: rest) with
      | some x => rw [hm] at h; cases h; exact matchLitClass_spec hm
      | none => rw [hm] at h; exact ih h

theorem lastSlashClass_spec {l r : List Char} (h : lastSlashClass l = some r) :
    r.length = 10 ∧ ∀ c ∈ r, isAZ09 c = true := by
  induction l with
  | nil => simp [lastSlashClass] at h
  | cons c rest ih =>
      unfold lastSlashClass at h
      match hm : lastSlashClass rest with
      | some x => rw [hm] at h; cases h; exact ih hm
      | none =>
          rw [hm] at h
          by_cases hc : c = '/'
          · rw [if_pos hc] at h; exact takeClass_spec h
          · rw [if_neg hc] at h; simp at h

theorem amazonComAt_spec {l r : List Char} (h : amazonComAt l = some r) :
    r.length = 10 ∧ ∀ c ∈ r, isAZ09 c = true := by
  unfold amazonComAt at h
  by_cases hs : startsWith "amazon.com".data l
  · rw [if_pos hs] at h; exact lastSlashClass_spec h
  · rw [if_neg hs] at h; simp at h

theorem searchAmazonCom_spec {l r : List Char} (h : searchAmazonCom l = some r) :
    r.length = 10 ∧ ∀ c ∈ r, isAZ09 c = true := by
  induction l with
  | nil => simp [searchAmazonCom] at h
  | cons c rest ih =>
      unfold searchAmazonCom at h
      match hm : amazonComAt (c :: rest) with
      | some x => rw [hm] at h; cases h; exact amazonComAt_spec hm
      | none => rw [hm] at h; exact ih h

/-- Whatever `find_asin` returns is ten characters of class `[A-Z0-9]`. -/
theorem find_asin_spec {t a : List Char} (h : find_asin t = some a) :
    a.length = 10 ∧ ∀ c ∈ a, isAZ09 c = true := by
  unfold find_asin oOr at h
  match h1 : searchLitClass dpLit t with
  | some x => rw [h1] at h; cases h; exact searchLitClass_spec h1
  | none =>
      rw [h1] at h
      match h2 : searchLitClass gpLit t with
      | some x => rw [h2] at h; cases h; exact searchLitClass_spec h2
      | none =>
          rw [h2] at h
          match h3 : searchAmazonCom t with
          | some x => rw [h3] at h; cases h; exact searchAmazonCom_spec h3
          | none => rw [h3] at h; exact searchLitClass_spec h

theorem isAZ09_ne_qmark {c : Char} (h : isAZ09 c = true) : c ≠ '?' := by
  intro he; subst he; simp [isAZ09] at h

theorem isAZ09_ne_amp {c : Char} (h : isAZ09 c = true) : c ≠ '&' := by
  intro he; subst he; simp [isAZ09] at h

/-- `re.search` leftmost semantics: if the pattern matches at position `i`
and at no earlier position, the search returns that match. -/
theorem searchLitClass_leftmost {lit : List Char} (hlit : lit ≠ []) :
    ∀ (i : Nat) (l code : List Char),
      matchLitClass lit (l.drop i) = some code →
      (∀ j, j < i → matchLitClass lit (l.drop j) = none) →
      searchLitClass lit l = some code := by
  intro i
  induction i with
  | zero =>
      intro l code h _
      match l with
      | [] =>
          exfalso
          match lit, hlit with
          | p :: ps, _ => simp [matchLitClass, startsWith] at h
      | c :: rest =>
          simp only [List.drop_zero] at h
          unfold searchLitClass
          rw [h]
  | succ i ih =>
      intro l code h hmin
      match l with
      | [] =>
          exfalso
          match lit, hlit with
          | p :: ps, _ => simp [matchLitClass, startsWith] at h
      | c :: rest =>
          have h0 : matchLitClass lit (c :: rest) = none := by
            have := hmin 0 (Nat.succ_pos i)
            simpa using this
          unfold searchLitClass
          rw [h0]
          apply ih rest code
          · simpa [List.drop_succ_cons] using h
          · intro j hj
            have := hmin (j + 1) (Nat.succ_lt_succ hj)
            simpa [List.drop_succ_cons] using this

/-! ### Helper lemmas: `pyQuote` output alphabet -/

theorem hexDigit_mem (n : Nat) : hexDigit n ∈ hexChars := by
  unfold hexDigit List.getD
  match h : hexChars.get? n with
  | some x =>
      simp only [h, Option.getD_some]
      exact List.get?_mem h
  | none => decide

theorem pyQuote_no_qmark_amp {l : List Char} :
    ∀ c ∈ pyQuote l, c ≠ '?' ∧ c ≠ '&' := by
  intro c hc
  unfold pyQuote at hc
  rcases List.mem_flatMap.mp hc with ⟨x, _, hx⟩
  by_cases hsafe : quoteSafe x
  · rw [if_pos hsafe] at hx
    simp only [List.mem_singleton] at hx
    subst hx
    constructor
    · intro he; subst he; simp [quoteSafe] at hsafe
    · intro he; subst he; simp [quoteSafe] at hsafe
  · rw [if_neg hsafe] at hx
    rcases List.mem_flatMap.mp hx with ⟨b, _, hb⟩
    have hmem : c = '%' ∨ c ∈ hexChars := by
      simp only [pctByte, List.mem_cons, List.mem_singleton] at hb
      rcases hb with h | h | h
      · exact Or.inl h
      · subst h; exact Or.inr (hexDigit_mem _)
      · rcases h with h | h
        · subst h; exact Or.inr (hexDigit_mem _)
        · simp at h
    rcases hmem with h | h
    · subst h; exact ⟨by decide, by decide⟩
    · fin_cases h <;> exact ⟨by decide, by decide⟩

/-! ### Helper lemmas: URL query-string structure -/

theorem splitAtQuery_append {b : List Char} (q : List Char) (hb : '?' ∉ b) :
    splitAtQuery (b ++ '?' :: q) = (b, some q) := by
  induction b with
  | nil => simp [splitAtQuery]
  | cons c rest ih =>
      have hc : c ≠ '?' := fun h => hb (h ▸ List.mem_cons_self c rest)
      have hrest : '?' ∉ rest := fun h => hb (List.mem_cons_of_mem _ h)
      have h1 : splitAtQuery (c :: (rest ++ '?' :: q)) =
          (c :: (splitAtQuery (rest ++ '?' :: q)).1,
           (splitAtQuery (rest ++ '?' :: q)).2) := by
        simp [splitAtQuery, hc]
      rw [List.cons_append, h1, ih hrest]

theorem splitAtQuery_fst_no_q : ∀ l : List Char, '?' ∉ (splitAtQuery l).1 := by
  intro l
  induction l with
  | nil => simp [splitAtQuery]
  | cons c rest ih =>
      by_cases hc : c = '?'
      · simp [splitAtQuery, hc]
      · show '?' ∉ (splitAtQuery (c :: rest)).1
        have : (splitAtQuery (c :: rest)).1 = c :: (splitAtQuery rest).1 := by
          simp [splitAtQuery, hc]
        rw [this]
        intro hmem
        rcases List.mem_cons.mp hmem with h | h
        · exact hc h.symm
        · exact ih h

theorem splitAtQuery_reconstruct : ∀ l : List Char,
    l = (splitAtQuery l).1 ++
        (match (splitAtQuery l).2 with
         | none => []
         | some q => '?' :: q) := by
  intro l
  induction l with
  | nil => rfl
  | cons c rest ih =>
      by_cases hc : c = '?'
      · subst hc; rfl
      · have h1 : splitAtQuery (c :: rest) =
            (c :: (splitAtQuery rest).1, (splitAtQuery rest).2) := by
          simp [splitAtQuery, hc]
        rw [h1]
        simpa using congrArg (fun x => c :: x) ih

theorem splitAmp_ne_nil : ∀ l : List Char, splitAmp l ≠ [] := by
  intro l
  induction l with
  | nil => simp [splitAmp]
  | cons c rest ih =>
      by_cases hc : c = '&'
      · simp [splitAmp, hc]
      · simp only [splitAmp, if_neg hc]
        match h : splitAmp rest with
        | [] => exact absurd h ih
        | p :: ps => simp

theorem splitAmp_cons_amp (rest : List Char) :
    splitAmp ('&' :: rest) = [] :: splitAmp rest := by
  simp [splitAmp]

theorem splitAmp_cons_ne {c : Char} (rest : List Char) (hc : c ≠ '&')
    {p : List Char} {ps : List (List Char)} (h : splitAmp rest = p :: ps) :
    splitAmp (c :: rest) = (c :: p) :: ps := by
  simp [splitAmp, hc, h]

theorem splitAmp_elem_no_amp :
    ∀ (l p : List Char), p ∈ splitAmp l → '&' ∉ p := by
  intro l
  induction l with
  | nil =>
      intro p hp
      simp only [splitAmp, List.mem_singleton] at hp
      subst hp; simp
  | cons c rest ih =>
      intro p hp
      by_cases hc : c = '&'
      · subst hc
        rw [splitAmp_cons_amp] at hp
        rcases List.mem_cons.mp hp with h | h
        · subst h; simp
        · exact ih p h
      · match hrest : splitAmp rest with
        | [] => exact absurd hrest (splitAmp_ne_nil rest)
        | q :: qs =>
            rw [splitAmp_cons_ne rest hc hrest] at hp
            rcases List.mem_cons.mp hp with h | h
            · subst h
              intro hmem
              rcases List.mem_cons.mp hmem with h' | h'
              · exact hc h'.symm
              · exact ih q (by rw [hrest]; exact List.mem_cons_self q qs) h'
            · exact ih p (by rw [hrest]; exact List.mem_cons_of_mem _ h)

theorem splitAmp_of_no_amp : ∀ l : List Char, '&' ∉ l → splitAmp l = [l] := by
  intro l
  induction l with
  | nil => intro _; rfl
  | cons c rest ih =>
      intro h
      have hc : c ≠ '&' := fun he => h (he ▸ List.mem_cons_self c rest)
      have hrest : '&' ∉ rest := fun he => h (List.mem_cons_of_mem _ he)
      exact splitAmp_cons_ne rest hc (ih hrest)

theorem splitAmp_append_amp : ∀ a b : List Char,
    splitAmp (a ++ '&' :: b) = splitAmp a ++ splitAmp b := by
  intro a b
  induction a with
  | nil => simp [splitAmp]
  | cons c a' ih =>
      by_cases hc : c = '&'
      · subst hc
        simp only [List.cons_append, splitAmp_cons_amp, ih]
      · match hpa : splitAmp a' with
        | [] => exact absurd hpa (splitAmp_ne_nil a')
        | p :: ps =>
            have h1 : splitAmp (a' ++ '&' :: b) = p :: (ps ++ splitAmp b) := by
              rw [ih, hpa]; rfl
            rw [List.cons_append, splitAmp_cons_ne _ hc h1,
                splitAmp_cons_ne _ hc hpa]
            rfl

theorem joinAmp_cons (p : List Char) {ps : List (List Char)} (h : ps ≠ []) :
    joinAmp (p :: ps) = p ++ '&' :: joinAmp ps := by
  match ps, h with
  | q :: qs, _ => rfl

theorem joinAmp_splitAmp : ∀ l : List Char, joinAmp (splitAmp l) = l := by
  intro l
  induction l with
  | nil => rfl
  | cons c rest ih =>
      by_cases hc : c = '&'
      · subst hc
        rw [splitAmp_cons_amp, joinAmp_cons [] (splitAmp_ne_nil rest), ih]
        rfl
      · match hrest : splitAmp rest with
        | [] => exact absurd hrest (splitAmp_ne_nil rest)
        | q :: qs =>
            rw [splitAmp_cons_ne rest hc hrest]
            match qs with
            | [] =>
                have : joinAmp (q :: ([] : List (List Char))) = q := rfl
                rw [hrest] at ih
                show c :: q = c :: rest
                rw [← ih]; rfl
            | q2 :: qs' =>
                rw [joinAmp_cons _ (by simp), List.cons_append]
                rw [hrest] at ih
                rw [joinAmp_cons _ (by simp)] at ih
                rw [ih]

theorem splitAmp_joinAmp : ∀ L : List (List Char), L ≠ [] →
    (∀ p ∈ L, '&' ∉ p) → splitAmp (joinAmp L) = L := by
  intro L
  induction L with
  | nil => intro h _; exact absurd rfl h
  | cons p L' ih =>
      intro _ hall
      match L' with
      | [] =>
          show splitAmp (joinAmp [p]) = [p]
          exact splitAmp_of_no_amp p (hall p (List.mem_cons_self p []))
      | q :: qs =>
          rw [joinAmp_cons p (by simp), splitAmp_append_amp,
              splitAmp_of_no_amp p (hall p (List.mem_cons_self p _)),
              ih (by simp) (fun x hx => hall x (List.mem_cons_of_mem _ hx))]
          rfl

theorem joinAmp_append_last : ∀ (L : List (List Char)) (x : List Char), L ≠ [] →
    joinAmp (L ++ [x]) = joinAmp L ++ '&' :: x := by
  intro L
  induction L with
  | nil => intro x h; exact absurd rfl h
  | cons p L' ih =>
      intro x _
      match L' with
      | [] => rfl
      | q :: qs =>
          rw [List.cons_append, joinAmp_cons p (by simp),
              joinAmp_cons p (by simp), ih x (by simp)]
          simp [List.append_assoc]

/-! ### Helper lemmas: host is untouched by query edits -/

theorem startsWith_length : ∀ {p l : List Char}, startsWith p l = true →
    p.length ≤ l.length := by
  intro p
  induction p with
  | nil => intro l _; simp
  | cons x ps ih =>
      intro l h
      match l with
      | [] => simp [startsWith] at h
      | c :: cs =>
          simp only [startsWith, Bool.and_eq_true] at h
          simpa using Nat.succ_le_succ (ih h.2)

theorem startsWith_append_q : ∀ (p b q : List Char), '?' ∉ p →
    startsWith p (b ++ '?' :: q) = startsWith p b := by
  intro p
  induction p with
  | nil => intro b q _; simp [startsWith]
  | cons x ps ih =>
      intro b q hp
      have hx : x ≠ '?' := fun h => hp (h ▸ List.mem_cons_self x ps)
      have hps : '?' ∉ ps := fun h => hp (List.mem_cons_of_mem _ h)
      match b with
      | [] => simp [startsWith, hx]
      | c :: cs =>
          show (decide (x = c) && startsWith ps (cs ++ '?' :: q)) =
               (decide (x = c) && startsWith ps cs)
          rw [ih cs q hps]

theorem takeWhile_append_stop (f : Char → Bool) (c0 : Char) (hc : f c0 = false) :
    ∀ (a y : List Char), (a ++ c0 :: y).takeWhile f = a.takeWhile f := by
  intro a y
  induction a with
  | nil => simp [List.takeWhile_cons, hc]
  | cons c a' ih => simp [List.takeWhile_cons, ih]

theorem hostOf_append_q (b q : List Char) :
    hostOf (b ++ '?' :: q) = hostOf b := by
  unfold hostOf dropScheme
  rw [startsWith_append_q _ b q (by decide), startsWith_append_q _ b q (by decide)]
  by_cases hs : startsWith "https://".data b = true
  · rw [if_pos hs, if_pos hs]
    have hlen : 8 ≤ b.length := by
      have := startsWith_length hs
      simpa using this
    rw [List.drop_append_of_le_length hlen]
    exact takeWhile_append_stop _ '?' (by decide) _ q
  · rw [if_neg hs, if_neg hs]
    by_cases hs7 : startsWith "http://".data b = true
    · rw [if_pos hs7, if_pos hs7]
      have hlen : 7 ≤ b.length := by
        have := startsWith_length hs7
        simpa using this
      rw [List.drop_append_of_le_length hlen]
      exact takeWhile_append_stop _ '?' (by decide) _ q
    · rw [if_neg hs7, if_neg hs7]
      exact takeWhile_append_stop _ '?' (by decide) b q

theorem isMarketHost_append_q (b q : List Char) :
    isMarketHost (b ++ '?' :: q) = isMarketHost b := by
  unfold isMarketHost
  rw [hostOf_append_q b q]

/-! ### Helper lemmas: `retag` -/

theorem isTagParam_retag (p : List Char) : isTagParam (retag p) = isTagParam p := by
  by_cases h : isTagParam p = true
  · rw [retag, if_pos h, h]; decide
  · rw [retag, if_neg h]

theorem retag_retag (p : List Char) : retag (retag p) = retag p := by
  by_cases h : isTagParam p = true
  · have h1 : retag p = tagKey ++ AMAZON_TAG := by unfold retag; rw [if_pos h]
    rw [h1]; decide
  · have h1 : retag p = p := by unfold retag; rw [if_neg h]
    rw [h1]; exact h1

theorem retag_no_amp {p : List Char} (hp : '&' ∉ p) : '&' ∉ retag p := by
  by_cases h : isTagParam p = true
  · rw [retag, if_pos h]; decide
  · rw [retag, if_neg h]; exact hp

/-! ### Helper lemmas: `monetize` -/

theorem monetize_base_q (base Q : List Char) (hb : '?' ∉ base)
    (hM : isMarketHost base = true) :
    monetize (base ++ '?' :: Q) =
      if (splitAmp Q).any isTagParam then
        base ++ '?' :: joinAmp ((splitAmp Q).map retag)
      else base ++ '?' :: (Q ++ '&' :: (tagKey ++ AMAZON_TAG)) := by
  have hhost : isMarketHost (base ++ '?' :: Q) = true := by
    rw [isMarketHost_append_q]; exact hM
  have hsp := splitAtQuery_append Q hb
  simp [monetize, hhost, hsp]

theorem countP_map_retag : ∀ L : List (List Char),
    (L.map retag).countP (fun p => isTagParam p) =
      L.countP (fun p => isTagParam p) := by
  intro L
  induction L with
  | nil => rfl
  | cons a L ih => simp [List.countP_cons, isTagParam_retag, ih]

/-- `monetize` is idempotent (spec §4.3 / §8). -/
theorem monetize_idem (url : List Char) : monetize (monetize url) = monetize url := by
  by_cases hm : isMarketHost url = true
  · rcases hq : splitAtQuery url with ⟨base, qopt⟩
    have hbase : '?' ∉ base := by
      have h := splitAtQuery_fst_no_q url
      rw [hq] at h; exact h
    have hrec := splitAtQuery_reconstruct url
    rw [hq] at hrec
    cases qopt with
    | none =>
        have hurl : url = base := by simpa using hrec
        have hM : isMarketHost base = true := by rw [← hurl]; exact hm
        have hmon : monetize url = base ++ '?' :: (tagKey ++ AMAZON_TAG) := by
          simp [monetize, hm, hq]
        rw [hmon, monetize_base_q base _ hbase hM]
        rw [show splitAmp (tagKey ++ AMAZON_TAG) = [tagKey ++ AMAZON_TAG] from by decide]
        rw [if_pos (show (([tagKey ++ AMAZON_TAG] : List (List Char)).any isTagParam) = true
              from by decide)]
        rw [show ([tagKey ++ AMAZON_TAG] : List (List Char)).map retag =
              [tagKey ++ AMAZON_TAG] from by decide]
        rfl
    | some q =>
        have hurl : url = base ++ '?' :: q := hrec
        have hM : isMarketHost base = true := by
          rw [hurl, isMarketHost_append_q] at hm; exact hm
        by_cases hany : (splitAmp q).any isTagParam = true
        · have hmon : monetize url = base ++ '?' :: joinAmp ((splitAmp q).map retag) := by
            simp [monetize, hm, hq, hany]
          have hLne : (splitAmp q).map retag ≠ [] := by
            intro h
            exact splitAmp_ne_nil q (List.map_eq_nil_iff.mp h)
          have hLnoamp : ∀ p ∈ (splitAmp q).map retag, '&' ∉ p := by
            intro p hp
            rcases List.mem_map.mp hp with ⟨x, hx, rfl⟩
            exact retag_no_amp (splitAmp_elem_no_amp q x hx)
          rw [hmon, monetize_base_q base _ hbase hM,
              splitAmp_joinAmp _ hLne hLnoamp]
          have hany2 : ((splitAmp q).map retag).any isTagParam = true := by
            rcases List.any_eq_true.mp hany with ⟨x, hx, hxt⟩
            exact List.any_eq_true.mpr
              ⟨retag x, List.mem_map_of_mem _ hx, by rw [isTagParam_retag]; exact hxt⟩
          rw [if_pos hany2]
          have hmap2 : ((splitAmp q).map retag).map retag = (splitAmp q).map retag := by
            rw [List.map_map]
            exact List.map_congr_left (fun a _ => retag_retag a)
          rw [hmap2]
        · have hmon : monetize url =
              base ++ '?' :: (q ++ '&' :: (tagKey ++ AMAZON_TAG)) := by
            simp [monetize, hm, hq, hany]
          rw [hmon, monetize_base_q base _ hbase hM]
          have hsplit2 : splitAmp (q ++ '&' :: (tagKey ++ AMAZON_TAG)) =
              splitAmp q ++ [tagKey ++ AMAZON_TAG] := by
            rw [splitAmp_append_amp,
                splitAmp_of_no_amp (tagKey ++ AMAZON_TAG) (by decide)]
          rw [hsplit2]
          have hany2 : (splitAmp q ++ [tagKey ++ AMAZON_TAG]).any isTagParam = true :=
            List.any_eq_true.mpr ⟨tagKey ++ AMAZON_TAG, by simp, by decide⟩
          rw [if_pos hany2]
          have hallfalse : ∀ p ∈ splitAmp q, isTagParam p = false := by
            intro p hp
            by_contra hcon
            have hpt : isTagParam p = true := by
              revert hcon; cases isTagParam p <;> simp
            exact hany (List.any_eq_true.mpr ⟨p, hp, hpt⟩)
          have hmapid : (splitAmp q).map retag = splitAmp q := by
            have h1 : (splitAmp q).map retag = (splitAmp q).map id :=
              List.map_congr_left (fun a ha => by
                have h0 := hallfalse a ha
                unfold retag
                rw [if_neg (by simp [h0])]
                rfl)
            rw [h1, List.map_id]
          rw [List.map_append, hmapid,
              show ([tagKey ++ AMAZON_TAG] : List (List Char)).map retag =
                [tagKey ++ AMAZON_TAG] from by decide]
          rw [joinAmp_append_last _ _ (splitAmp_ne_nil q), joinAmp_splitAmp]
  · have h1 : monetize url = url := by
      simp [monetize, hm]
    rw [h1, h1]

/-- Re-tagging a URL that already carries tag parameters replaces values
in place: the tag-parameter count and total parameter count are unchanged. -/
theorem countTag_monetize_replace {url : List Char} (hm : isMarketHost url = true)
    (h1 : 1 ≤ countTag url) :
    countTag (monetize url) = countTag url ∧
      paramCount (monetize url) = paramCount url := by
  rcases hq : splitAtQuery url with ⟨base, qopt⟩
  have hbase : '?' ∉ base := by
    have h := splitAtQuery_fst_no_q url
    rw [hq] at h; exact h
  cases qopt with
  | none =>
      exfalso
      have h0 : countTag url = 0 := by simp [countTag, hq]
      omega
  | some q =>
      have hcount : countTag url = (splitAmp q).countP (fun p => isTagParam p) := by
        simp [countTag, hq]
      rw [hcount] at h1
      have hany : (splitAmp q).any isTagParam = true := by
        rcases List.countP_pos_iff.mp (by omega : 0 < (splitAmp q).countP (fun p => isTagParam p)) with ⟨a, ha, hpa⟩
        exact List.any_eq_true.mpr ⟨a, ha, hpa⟩
      have hmon : monetize url = base ++ '?' :: joinAmp ((splitAmp q).map retag) := by
        simp [monetize, hm, hq, hany]
      have hLne : (splitAmp q).map retag ≠ [] := by
        intro h
        exact splitAmp_ne_nil q (List.map_eq_nil_iff.mp h)
      have hLnoamp : ∀ p ∈ (splitAmp q).map retag, '&' ∉ p := by
        intro p hp
        rcases List.mem_map.mp hp with ⟨x, hx, rfl⟩
        exact retag_no_amp (splitAmp_elem_no_amp q x hx)
      have hsp2 := splitAtQuery_append (joinAmp ((splitAmp q).map retag)) hbase
      constructor
      · rw [hmon]
        have h2 : countTag (base ++ '?' :: joinAmp ((splitAmp q).map retag)) =
            (splitAmp (joinAmp ((splitAmp q).map retag))).countP
              (fun p => isTagParam p) := by
          simp [countTag, hsp2]
        rw [h2, splitAmp_joinAmp _ hLne hLnoamp, countP_map_retag, hcount]
      · rw [hmon]
        have h2 : paramCount (base ++ '?' :: joinAmp ((splitAmp q).map retag)) =
            (splitAmp (joinAmp ((splitAmp q).map retag))).length := by
          simp [paramCount, hsp2]
        rw [h2, splitAmp_joinAmp _ hLne hLnoamp, List.length_map]
        simp [paramCount, hq]

/-! ### Helper lemmas: the links the pipeline builds -/

theorem countTag_append_q {b q : List Char} (hb : '?' ∉ b) :
    countTag (b ++ '?' :: q) = (splitAmp q).countP (fun p => isTagParam p) := by
  simp [countTag, splitAtQuery_append q hb]

theorem countTag_dpLink {a : List Char} (ha : ∀ c ∈ a, isAZ09 c = true) :
    countTag (dpLink a) = 1 := by
  have hb : '?' ∉ ("https://www.amazon.com/dp/".data ++ a) := by
    intro hmem
    rcases List.mem_append.mp hmem with h | h
    · revert h; decide
    · exact isAZ09_ne_qmark (ha _ h) rfl
  have hform : dpLink a =
      ("https://www.amazon.com/dp/".data ++ a) ++ '?' :: ("tag=".data ++ AMAZON_TAG) := by
    unfold dpLink
    rw [show ("?tag=".data : List Char) = '?' :: "tag=".data from by decide]
    simp [List.append_assoc]
  rw [hform, countTag_append_q hb]
  decide

theorem isTagParam_k_cons (x : List Char) : isTagParam ('k' :: x) = false := rfl

theorem countTag_searchLink (t : List Char) :
    countTag (create_amazon_search_link t) = 1 := by
  have hb : '?' ∉ ("https://www.amazon.com/s".data : List Char) := by decide
  have hkenc : '&' ∉ ("k=".data ++ pyQuote (search_query t)) := by
    intro hmem
    rcases List.mem_append.mp hmem with h | h
    · revert h; decide
    · exact (pyQuote_no_qmark_amp _ h).2 rfl
  have hform : create_amazon_search_link t =
      "https://www.amazon.com/s".data ++
        '?' :: (("k=".data ++ pyQuote (search_query t)) ++
          '&' :: ("tag=".data ++ AMAZON_TAG)) := by
    unfold create_amazon_search_link
    rw [show ("https://www.amazon.com/s?k=".data : List Char) =
          "https://www.amazon.com/s".data ++ '?' :: "k=".data from by decide,
        show ("&tag=".data : List Char) = '&' :: "tag=".data from by decide]
    simp [List.append_assoc]
  rw [hform, countTag_append_q hb, splitAmp_append_amp,
      splitAmp_of_no_amp _ hkenc,
      splitAmp_of_no_amp ("tag=".data ++ AMAZON_TAG) (by decide)]
  simp [List.countP_cons, isTagParam_k_cons,
        show isTagParam ('t' :: 'a' :: 'g' :: '=' :: AMAZON_TAG) = true from by decide]

/-! ### Helper lemmas: `fetch_deals` structure -/

theorem dedupGo_subset : ∀ (l : List PyDeal) (seen : List (List Char)) (d : PyDeal),
    d ∈ dedupGo seen l → d ∈ l := by
  intro l
  induction l with
  | nil => intro seen d h; simp [dedupGo] at h
  | cons x xs ih =>
      intro seen d h
      unfold dedupGo at h
      by_cases hx : x.title ∈ seen
      · rw [if_pos hx] at h
        exact List.mem_cons_of_mem _ (ih seen d h)
      · rw [if_neg hx] at h
        rcases List.mem_cons.mp h with h | h
        · exact h ▸ List.mem_cons_self x xs
        · exact List.mem_cons_of_mem _ (ih _ d h)

theorem dedupGo_not_seen : ∀ (l : List PyDeal) (seen : List (List Char)) (d : PyDeal),
    d ∈ dedupGo seen l → d.title ∉ seen := by
  intro l
  induction l with
  | nil => intro seen d h; simp [dedupGo] at h
  | cons x xs ih =>
      intro seen d h
      unfold dedupGo at h
      by_cases hx : x.title ∈ seen
      · rw [if_pos hx] at h
        exact ih seen d h
      · rw [if_neg hx] at h
        rcases List.mem_cons.mp h with h | h
        · subst h; exact hx
        · intro hc
          exact ih _ d h (List.mem_cons_of_mem _ hc)

theorem dedupGo_pairwise : ∀ (l : List PyDeal) (seen : List (List Char)),
    (dedupGo seen l).Pairwise (fun a b => a.title ≠ b.title) := by
  intro l
  induction l with
  | nil => intro seen; simp [dedupGo]
  | cons x xs ih =>
      intro seen
      unfold dedupGo
      by_cases hx : x.title ∈ seen
      · rw [if_pos hx]; exact ih seen
      · rw [if_neg hx]
        refine List.Pairwise.cons ?_ (ih _)
        intro b hb
        have hnb := dedupGo_not_seen xs (x.title :: seen) b hb
        intro he
        apply hnb
        rw [← he]
        exact List.mem_cons_self _ _

theorem mem_fetch_deals {sources : List (List Char × Option (List Entry))}
    {d : PyDeal} (hd : d ∈ fetch_deals sources) :
    ∃ name e, d = ingestEntry name e := by
  unfold fetch_deals at hd
  have hd1 : d ∈ dedupGo [] (sources.flatMap sourceDeals) :=
    List.take_subset _ _ hd
  have hd2 : d ∈ sources.flatMap sourceDeals := dedupGo_subset _ _ _ hd1
  rcases List.mem_flatMap.mp hd2 with ⟨src, _, hsrc⟩
  rcases src with ⟨name, res⟩
  cases res with
  | none => simp [sourceDeals] at hsrc
  | some es =>
      have hsrc' : d ∈ (es.take 6).map (ingestEntry name) := hsrc
      rcases List.mem_map.mp hsrc' with ⟨e, _, rfl⟩
      exact ⟨name, e, rfl⟩

theorem ingestEntry_link (name : List Char) (e : Entry) :
    (∃ a, find_asin (entryBlob e) = some a ∧ (ingestEntry name e).link = dpLink a) ∨
    (find_asin (entryBlob e) = none ∧
      (ingestEntry name e).link = create_amazon_search_link e.title) := by
  unfold ingestEntry
  match h : find_asin (entryBlob e) with
  | some a => exact Or.inl ⟨a, rfl, rfl⟩
  | none => exact Or.inr ⟨rfl, rfl⟩

theorem ingestEntry_id (name : List Char) (e : Entry) :
    (∃ a, find_asin (entryBlob e) = some a ∧ (ingestEntry name e).id = a) ∨
    (find_asin (entryBlob e) = none ∧ (ingestEntry name e).id = e.link) := by
  unfold ingestEntry
  match h : find_asin (entryBlob e) with
  | some a => exact Or.inl ⟨a, rfl, rfl⟩
  | none => exact Or.inr ⟨rfl, rfl⟩

/-! ### Helper lemmas: empty runs, enrichment fallback, spec selector -/

theorem fetch_deals_all_fail :
    ∀ sources : List (List Char × Option (List Entry)),
      (∀ p ∈ sources, p.2 = none) → fetch_deals sources = [] := by
  have hflat : ∀ sources : List (List Char × Option (List Entry)),
      (∀ p ∈ sources, p.2 = none) → sources.flatMap sourceDeals = [] := by
    intro sources
    induction sources with
    | nil => intro _; rfl
    | cons s ss ih =>
        intro h
        have hs : s.2 = none := h s (List.mem_cons_self s ss)
        have hss : ∀ p ∈ ss, p.2 = none := fun p hp => h p (List.mem_cons_of_mem _ hp)
        rw [List.flatMap_cons]
        have hsd : sourceDeals s = [] := by
          unfold sourceDeals; rw [hs]
        rw [hsd, ih hss]
        rfl
  intro sources h
  unfold fetch_deals
  rw [hflat sources h]
  rfl

theorem ingestEntry_headline (name : List Char) (e : Entry) :
    (ingestEntry name e).headline = none := by
  unfold ingestEntry
  cases find_asin (entryBlob e) <;> rfl

theorem applyFallback_fields (d : PyDeal) :
    (applyFallback d).headline.isSome = true ∧
    (applyFallback d).why_good.isSome = true ∧
    (applyFallback d).discount_guess.isSome = true ∧
    (applyFallback d).social_caption.isSome = true ∧
    (applyFallback d).img.isSome = true ∧
    (cardHtmlOf (applyFallback d)).isSome = true := by
  unfold applyFallback cardHtmlOf
  cases d.img <;> simp [imgStr]

theorem enrichOne_merged_no_headline {d : PyDeal} {r : EnrichResp} (cardOk : Bool)
    (h : (mergeResp d r).headline = none) :
    enrichOne d (some r) cardOk =
      applyFallback
        { mergeResp d r with
          img := match (mergeResp d r).img with
                 | none => some (fallbackImgFor (mergeResp d r).category)
                 | some u => some u } := by
  unfold enrichOne
  simp [h]

theorem selectDedup_subset :
    ∀ (l : List SpecDeal) (seen : List (List Char)) (d : SpecDeal),
      d ∈ selectDedup seen l → d ∈ l := by
  intro l
  induction l with
  | nil => intro seen d h; simp [selectDedup] at h
  | cons x xs ih =>
      intro seen d h
      unfold selectDedup at h
      by_cases hx : dedupKey x ∈ seen
      · rw [if_pos hx] at h
        exact List.mem_cons_of_mem _ (ih seen d h)
      · rw [if_neg hx] at h
        rcases List.mem_cons.mp h with h | h
        · exact h ▸ List.mem_cons_self x xs
        · exact List.mem_cons_of_mem _ (ih _ d h)

/-! ### Claim theorems -/

/-- C1, counterexample. The claim says that an entry containing one of the
marketplace path patterns `/dp/<code>`, `/gp/product/<code>` or their
percent-encoded forms resolves to exactly that product id regardless of
surrounding text. False: the generic `amazon.com` fallback pattern
outranks the percent-encoded `/dp/` pattern, so surrounding text that
merely mentions `amazon.com/<10-chars>` (none of the claimed patterns)
overrides a percent-encoded product id; moreover the percent-encoded
`/gp/product/` form is not recognised at all. -/
theorem c1_pattern_counterexample :
    searchLitClass pctDpLit
        (entryBlob { title := "Hot item".data,
                     link := "https://deals.example.net/item?u=%2Fdp%2FCCCCCCCCCC".data,
                     summary := " as seen on amazon.com/ABCDEFGHIJ page".data,
                     content := [] }) = some "CCCCCCCCCC".data ∧
    find_asin
        (entryBlob { title := "Hot item".data,
                     link := "https://deals.example.net/item?u=%2Fdp%2FCCCCCCCCCC".data,
                     summary := " as seen on amazon.com/ABCDEFGHIJ page".data,
                     content := [] }) = some "ABCDEFGHIJ".data ∧
    ("ABCDEFGHIJ".data : List Char) ≠ "CCCCCCCCCC".data ∧
    find_asin "https://ex.net/view?u=%2Fgp%2Fproduct%2FDDDDDDDDDD".data = none := by
  decide

/-- C1, amended: resolution tries `/dp/`, `/gp/product/`, the generic
`amazon.com` fallback, then `%2Fdp%2F`, in that order, and within a
pattern returns the leftmost match. Hence for the highest-priority
`/dp/` pattern the original claim does hold: when `/dp/<10-char-code>`
matches at a position and at no earlier position, `find_asin` extracts
exactly that code, regardless of all surrounding text. -/
theorem c1_amended_dp_leftmost (text code : List Char) (i : Nat)
    (h : matchLitClass dpLit (text.drop i) = some code)
    (hmin : ∀ j, j < i → matchLitClass dpLit (text.drop j) = none) :
    find_asin text = some code := by
  have hs := searchLitClass_leftmost (show dpLit ≠ [] by decide) i text code h hmin
  unfold find_asin
  rw [hs]
  rfl

/-- Witness for C1 amended: a concrete `/dp/` entry, matched at position 0. -/
theorem c1_amended_dp_leftmost_witness :
    matchLitClass dpLit (("/dp/ABCDEFGH12".data : List Char).drop 0) =
        some "ABCDEFGH12".data ∧
    find_asin "/dp/ABCDEFGH12".data = some "ABCDEFGH12".data :=
  ⟨by decide,
   c1_amended_dp_leftmost _ _ 0 (by decide)
     (fun j hj => absurd hj (Nat.not_lt_zero j))⟩

/-- C2: every link the ingest stage produces (direct `/dp/` link from an
extracted ASIN, or the search fallback) carries the affiliate tag
parameter exactly once; the spec-modelled `monetize` is idempotent; and
re-tagging a URL that already carries tag parameters replaces values in
place (tag-parameter count and parameter count unchanged), never
duplicating. -/
theorem c2_affiliate_tag_invariant :
    (∀ (sources : List (List Char × Option (List Entry))) (d : PyDeal),
        d ∈ fetch_deals sources → countTag d.link = 1) ∧
    (∀ url : List Char, monetize (monetize url) = monetize url) ∧
    (∀ url : List Char, isMarketHost url = true → 1 ≤ countTag url →
        countTag (monetize url) = countTag url ∧
          paramCount (monetize url) = paramCount url) := by
  refine ⟨?_, monetize_idem, fun url hm h1 => countTag_monetize_replace hm h1⟩
  intro sources d hd
  rcases mem_fetch_deals hd with ⟨name, e, rfl⟩
  rcases ingestEntry_link name e with ⟨a, ha, hlink⟩ | ⟨_, hlink⟩
  · rw [hlink]
    exact countTag_dpLink (find_asin_spec ha).2
  · rw [hlink]
    exact countTag_searchLink e.title

/-- Witness for C2: a concrete ingested deal's link carries the tag once;
`monetize` is idempotent and value-replacing on concrete URLs. -/
theorem c2_affiliate_tag_invariant_witness :
    countTag (ingestEntry "s".data
      { title := "Deal A".data, link := "https://x.com/dp/B01AAAAAAA".data,
        summary := [], content := [] }).link = 1 ∧
    monetize (monetize "https://www.amazon.com/s?k=x".data) =
      monetize "https://www.amazon.com/s?k=x".data ∧
    (countTag (monetize "https://www.amazon.com/s?k=x&tag=old".data) =
        countTag "https://www.amazon.com/s?k=x&tag=old".data ∧
      paramCount (monetize "https://www.amazon.com/s?k=x&tag=old".data) =
        paramCount "https://www.amazon.com/s?k=x&tag=old".data) :=
  ⟨c2_affiliate_tag_invariant.1
      [("s".data, some [{ title := "Deal A".data,
                          link := "https://x.com/dp/B01AAAAAAA".data,
                          summary := [], content := [] }])] _ (by decide),
   c2_affiliate_tag_invariant.2.1 _,
   c2_affiliate_tag_invariant.2.2 _ (by decide) (by decide)⟩

/-- C3: the claim (and spec §4.4) wants dedupe keyed by product id when
present; the code dedupes by title only. Two entries with the SAME
extracted product id but different titles both survive selection — the
code keeps both, the claim says only the first is kept. -/
theorem c3_dedup_by_title_only :
    (fetch_deals [("s".data,
        some [{ title := "Deal A".data, link := "https://x.com/dp/B01AAAAAAA".data,
                summary := [], content := [] },
              { title := "Deal B".data,
                link := "https://y.example.com/dp/B01AAAAAAA?x=1".data,
                summary := [], content := [] }])]).map (fun d => d.id) =
      ["B01AAAAAAA".data, "B01AAAAAAA".data] ∧
    (fetch_deals [("s".data,
        some [{ title := "Deal A".data, link := "https://x.com/dp/B01AAAAAAA".data,
                summary := [], content := [] },
              { title := "Deal B".data,
                link := "https://y.example.com/dp/B01AAAAAAA?x=1".data,
                summary := [], content := [] }])]).map (fun d => d.title) =
      ["Deal A".data, "Deal B".data] := by
  decide

/-- C4, counterexample. A parseable enrichment response that includes a
headline and discount but omits `why_good` is merged with no validation:
the deal reaches the render stage with `why_good` still missing, and
`generate_site` then raises `KeyError` (modelled as `none`) instead of
the claimed fallback path. -/
theorem c4_missing_field_counterexample :
    (enrichOne
        (ingestEntry "TestFeed".data
          { title := "Gadget Discount Week".data,
            link := "https://shop.example.com/item/123".data,
            summary := [], content := [] })
        (some { headline := some "Gadget Sale".data,
                discount_guess := some "20% OFF".data,
                category := some "Tech".data,
                social_caption := some "Wow #deals".data })
        true).why_good = none ∧
    generate_site
        [enrichOne
          (ingestEntry "TestFeed".data
            { title := "Gadget Discount Week".data,
              link := "https://shop.example.com/item/123".data,
              summary := [], content := [] })
          (some { headline := some "Gadget Sale".data,
                  discount_guess := some "20% OFF".data,
                  category := some "Tech".data,
                  social_caption := some "Wow #deals".data })
          true] = none := by
  decide

/-- C4, amended: when the enrichment call raises (network error or a
malformed, unparseable response — `svc = none`), or when the parsed
response lacks a headline (which makes the social-card step's own error
handler raise, landing in the same `except`), the fallback populates
headline, justification, discount, caption and image, and the deal
renders. But `category` is never synthesized by the fallback, and a
parseable response that has a headline but omits other required fields is
merged without validation, so those fields stay missing (see the
counterexample). -/
theorem c4_amended_fallback_on_exception (name : List Char) (e : Entry)
    (svc : Option EnrichResp) (cardOk : Bool)
    (hfail : svc = none ∨ ∃ r, svc = some r ∧ r.headline = none) :
    ((enrichOne (ingestEntry name e) svc cardOk).headline).isSome = true ∧
    ((enrichOne (ingestEntry name e) svc cardOk).why_good).isSome = true ∧
    ((enrichOne (ingestEntry name e) svc cardOk).discount_guess).isSome = true ∧
    ((enrichOne (ingestEntry name e) svc cardOk).social_caption).isSome = true ∧
    ((enrichOne (ingestEntry name e) svc cardOk).img).isSome = true ∧
    (cardHtmlOf (enrichOne (ingestEntry name e) svc cardOk)).isSome = true := by
  rcases hfail with rfl | ⟨r, rfl, hr⟩
  · show ((applyFallback (ingestEntry name e)).headline).isSome = true ∧ _
    exact applyFallback_fields _
  · have hmerged : (mergeResp (ingestEntry name e) r).headline = none := by
      unfold mergeResp
      rw [hr]
      exact ingestEntry_headline name e
    rw [enrichOne_merged_no_headline cardOk hmerged]
    exact applyFallback_fields _

/-- Witness for C4 amended: a concrete service failure yields a deal with
every display field populated. -/
theorem c4_amended_fallback_on_exception_witness :
    ((enrichOne (ingestEntry "F".data
        { title := "Widget Deal".data, link := "https://w.example.com/x".data,
          summary := [], content := [] }) none true).headline).isSome = true ∧
    ((enrichOne (ingestEntry "F".data
        { title := "Widget Deal".data, link := "https://w.example.com/x".data,
          summary := [], content := [] }) none true).why_good).isSome = true ∧
    ((enrichOne (ingestEntry "F".data
        { title := "Widget Deal".data, link := "https://w.example.com/x".data,
          summary := [], content := [] }) none true).discount_guess).isSome = true ∧
    ((enrichOne (ingestEntry "F".data
        { title := "Widget Deal".data, link := "https://w.example.com/x".data,
          summary := [], content := [] }) none true).social_caption).isSome = true ∧
    ((enrichOne (ingestEntry "F".data
        { title := "Widget Deal".data, link := "https://w.example.com/x".data,
          summary := [], content := [] }) none true).img).isSome = true ∧
    (cardHtmlOf (enrichOne (ingestEntry "F".data
        { title := "Widget Deal".data, link := "https://w.example.com/x".data,
          summary := [], content := [] }) none true)).isSome = true :=
  c4_amended_fallback_on_exception _ _ _ _ (Or.inl rfl)

/-- C5, counterexample. For the title `"Amazing Deal: 50% off Sony
Headphones Today Only"` the claim expects query tokens
`["amazing","sony","headphones","today","only"]`; the code's tokens
differ: punctuation stays attached (`"deal:"` is not the stoplist word
`"deal"`, `"50%"` fails `str.isdigit`) and `"only"` IS in the stoplist. -/
theorem c5_token_counterexample :
    (clean_words "Amazing Deal: 50% off Sony Headphones Today Only".data).take 5 ≠
      ["amazing".data, "sony".data, "headphones".data, "today".data,
       "only".data] := by
  decide

/-- C5, amended: for that title the first five clean tokens are exactly
`["amazing","deal:","50%","sony","headphones"]`, joined with spaces and
URL-encoded into the final search link. -/
theorem c5_amended_tokens :
    (clean_words "Amazing Deal: 50% off Sony Headphones Today Only".data).take 5 =
      ["amazing".data, "deal:".data, "50%".data, "sony".data,
       "headphones".data] ∧
    create_amazon_search_link
        "Amazing Deal: 50% off Sony Headphones Today Only".data =
      "https://www.amazon.com/s?k=amazing%20deal%3A%2050%25%20sony%20headphones&tag=circuitbrea0c-20".data := by
  decide

/-- C6: when every configured source fails (or there are no sources),
`fetch_deals` yields the empty list and the `__main__` block still calls
the publisher with that empty list, which renders the "no deals" page
(header, placeholder paragraph, footer) instead of raising. -/
theorem c6_no_deals_output (sources : List (List Char × Option (List Entry)))
    (rs : List (Option EnrichResp)) (cs : List Bool)
    (hfail : ∀ p ∈ sources, p.2 = none) :
    fetch_deals sources = [] ∧
    mainRun sources rs cs = some (siteHeader ++ noDealsMsg ++ siteFooter) := by
  have hempty : fetch_deals sources = [] := fetch_deals_all_fail sources hfail
  refine ⟨hempty, ?_⟩
  unfold mainRun
  rw [hempty]
  simp [generate_site, cardsHtml, List.isEmpty]

/-- Witness for C6: one failing source. -/
theorem c6_no_deals_output_witness :
    fetch_deals [("x".data, (none : Option (List Entry)))] = [] ∧
    mainRun [("x".data, none)] [] [] =
      some (siteHeader ++ noDealsMsg ++ siteFooter) :=
  c6_no_deals_output _ _ _ (by decide)

/-- C7 (spec-modelled `select`): any deal whose title contains a
case-insensitive match of a configured exclusion keyword is absent from
the selection output. -/
theorem c7_exclusion_filter (deals : List SpecDeal) (max_count : Nat)
    (exclude : List (List Char)) (d : SpecDeal) (k : List Char)
    (hk : k ∈ exclude)
    (hmatch : containsSub (lowerL k) (lowerL d.title) = true) :
    d ∉ select deals max_count exclude := by
  intro hd
  unfold select at hd
  have hd1 := List.take_subset _ _ hd
  have hd2 := selectDedup_subset _ _ _ hd1
  have hd3 := (List.mem_filter.mp hd2).2
  have hany : exclude.any (fun k => containsSub (lowerL k) (lowerL d.title)) = true :=
    List.any_eq_true.mpr ⟨k, hk, hmatch⟩
  rw [hany] at hd3
  simp at hd3

/-- Witness for C7: a concrete excluded title is dropped. -/
theorem c7_exclusion_filter_witness :
    ("sale".data ∈ ["sale".data]) ∧
    containsSub (lowerL "sale".data) (lowerL "Big SALE today".data) = true ∧
    ({ title := "Big SALE today".data } : SpecDeal) ∉
      select [{ title := "Big SALE today".data }] 15 ["sale".data] :=
  ⟨by decide, by decide,
   c7_exclusion_filter [{ title := "Big SALE today".data }] 15 ["sale".data]
     { title := "Big SALE today".data } "sale".data (by decide) (by decide)⟩

/-- C8, code-bug exhibit. The output-size half of the claim holds: for
every input, the selection output never exceeds the hardcoded maximum 15
of `list(unique)[:15]`. The key-uniqueness half fails for the dedupe key
the claim defines (product id when present, per spec §3/§4.4): the code
dedupes by title only, so two entries that resolve to the same product id
via different raw links, under different titles, both reach the output —
two output entries sharing the dedupe key `B09ZZZZZZZ`. -/
theorem c8_duplicate_key_exhibit :
    (∀ sources : List (List Char × Option (List Entry)),
        (fetch_deals sources).length ≤ 15) ∧
    (fetch_deals [("s".data,
        some [{ title := "Foo X".data,
                link := "https://a.example.com/dp/B09ZZZZZZZ".data,
                summary := [], content := [] },
              { title := "Foo Y".data,
                link := "https://b.example.com/dp/B09ZZZZZZZ?r=2".data,
                summary := [], content := [] }])]).map (fun d => d.id) =
      ["B09ZZZZZZZ".data, "B09ZZZZZZZ".data] := by
  constructor
  · intro sources
    unfold fetch_deals
    exact List.length_take_le 15 _
  · decide

/-- C9: the scenario link `https://www.example.com/gp/product/B08N5WRWNW/ref=x`
resolves to product id `B08N5WRWNW`, both through `find_asin` directly
and through ingest of an entry with that link. -/
theorem c9_gp_product_scenario :
    find_asin "https://www.example.com/gp/product/B08N5WRWNW/ref=x".data =
      some "B08N5WRWNW".data ∧
    (ingestEntry "src".data
      { title := "Some Deal".data,
        link := "https://www.example.com/gp/product/B08N5WRWNW/ref=x".data,
        summary := [], content := [] }).id = "B08N5WRWNW".data := by
  decide

/-- C10: every deal record that ingest produces carries a populated `id`:
the extracted ASIN when `find_asin` succeeds on the entry's link+summary
blob, otherwise the entry's raw feed link. -/
theorem c10_id_always_populated (sources : List (List Char × Option (List Entry)))
    (d : PyDeal) (hd : d ∈ fetch_deals sources) :
    ∃ name e, d = ingestEntry name e ∧
      ((∃ a, find_asin (entryBlob e) = some a ∧ d.id = a) ∨
       (find_asin (entryBlob e) = none ∧ d.id = e.link)) := by
  rcases mem_fetch_deals hd with ⟨name, e, rfl⟩
  exact ⟨name, e, rfl, ingestEntry_id name e⟩

/-- Witness for C10: a concrete ingested deal (no ASIN in the entry, so
the id falls back to the raw link). -/
theorem c10_id_always_populated_witness :
    (ingestEntry "s".data
        { title := "Plain Deal".data, link := "https://plain.example.com/p".data,
          summary := [], content := [] } ∈
      fetch_deals [("s".data,
        some [{ title := "Plain Deal".data,
                link := "https://plain.example.com/p".data,
                summary := [], content := [] }])]) ∧
    (∃ name e,
        ingestEntry "s".data
          { title := "Plain Deal".data, link := "https://plain.example.com/p".data,
            summary := [], content := [] } = ingestEntry name e ∧
        ((∃ a, find_asin (entryBlob e) = some a ∧
            (ingestEntry "s".data
              { title := "Plain Deal".data,
                link := "https://plain.example.com/p".data,
                summary := [], content := [] }).id = a) ∨
         (find_asin (entryBlob e) = none ∧
            (ingestEntry "s".data
              { title := "Plain Deal".data,
                link := "https://plain.example.com/p".data,
                summary := [], content := [] }).id = e.link))) :=
  ⟨by decide,
   c10_id_always_populated
     [("s".data,
       some [{ title := "Plain Deal".data,
               link := "https://plain.example.com/p".data,
               summary := [], content := [] }])]
     (ingestEntry "s".data
       { title := "Plain Deal".data, link := "https://plain.example.com/p".data,
         summary := [], content := [] })
     (by decide)⟩
